import Mathlib

/-!
Verification of the pooling/lease engine in `src/packages/puppeteer/src/pool.ts`
(repository `hogyny/watched-js`).

The TypeScript source is embedded shallowly:

* option records become Lean structures; the JS object spread
  `{ ...defaults, ...options }` becomes field-wise `Option.getD`
  (an absent field takes the default, a supplied field overrides it);
* the side effects performed during `acquirePage` / `page.release` /
  `callPage` (pool acquire, incognito-context creation, page creation,
  rule application, page close, context close, pool release) become an
  explicit trace — a `List Effect` — produced by pure functions;
* fallible operations (`page.close()`, `context.close()` may reject)
  are modelled by Boolean failure oracles passed as arguments; a rejected
  `await` inside an `async` function aborts the rest of the function body,
  which the embedding reproduces by cutting the trace at the first failure;
* `Date.now()` timestamps become `Int` arguments.

Pages are identified by natural numbers; the primary page created by
`acquirePage` has id `0`.
-/

namespace Pool

/-! ## Pool options (`PoolOptions`, `defaultPoolOptions`, src lines 5-25, 71) -/

/-- Effective pool options after merging with defaults (src `PoolOptions`). -/
structure PoolOptions where
  autostart : Bool
  min : Nat
  max : Nat
  timeout : Int
  testOnBorrow : Bool
deriving DecidableEq, Repr

/-- Caller-supplied pool options: every field optional (src `Partial<PoolOptions>`). -/
structure PartialPoolOptions where
  autostart : Option Bool
  min : Option Nat
  max : Option Nat
  timeout : Option Int
  testOnBorrow : Option Bool
deriving DecidableEq, Repr

/-- `defaultPoolOptions` (src lines 13-25): autostart true, min 0, max 5,
testOnBorrow true, timeout 30000. -/
def defaultPoolOptions : PoolOptions :=
  { autostart := true, min := 0, max := 5, timeout := 30000, testOnBorrow := true }

/-- `const opts = { ...defaultPoolOptions, ...options }` (src line 71):
each supplied field overrides its own default, absent fields keep the default. -/
def mergePoolOptions (o : PartialPoolOptions) : PoolOptions :=
  { autostart := o.autostart.getD defaultPoolOptions.autostart
    min := o.min.getD defaultPoolOptions.min
    max := o.max.getD defaultPoolOptions.max
    timeout := o.timeout.getD defaultPoolOptions.timeout
    testOnBorrow := o.testOnBorrow.getD defaultPoolOptions.testOnBorrow }

/-- Modelled from the spec: the option normalisation performed by the external
`generic-pool` library when `genericPool.createPool(factory, opts)` is called
(src line 87). The library itself is not part of this repository; the source
comment at src lines 17-18 ("If this is set >= max, the pool will silently set
the min to equal") and the spec ("if input violates this, `min` is silently
clamped to `max`") state that the effective `min` is clamped to `max`. -/
def genericPoolConfig (o : PoolOptions) : PoolOptions :=
  { o with min := Nat.min o.min o.max }

/-! ## Page options (`PageOptions`, `defaultPageOptions`, src lines 31-51, 96) -/

/-- Rule configuration forwarded to `setupPageRules`. Modelled from the spec:
`PageRuleOptions` lives in `./pageRules`, which is not under `src/`; the spec
treats the rule hook as an opaque side-effecting callback, so its configuration
is opaque here. -/
structure PageRuleOptions where
deriving DecidableEq, Repr

/-- Caller-supplied page options (src `PageOptions`, lines 31-46): all fields
optional; `ruleOptions` has no default, so it stays an `Option` after merging. -/
structure PageOptions where
  incognito : Option Bool
  applyRulesToPopups : Option Bool
  ruleOptions : Option PageRuleOptions
deriving DecidableEq, Repr

/-- Effective page options after `{ ...defaultPageOptions, ...options }`
(src line 96). -/
structure EffPageOptions where
  incognito : Bool
  applyRulesToPopups : Bool
  ruleOptions : Option PageRuleOptions
deriving DecidableEq, Repr

/-- `defaultPageOptions` (src lines 48-51): incognito true,
applyRulesToPopups true; no `ruleOptions` key. -/
def defaultPageOptions : EffPageOptions :=
  { incognito := true, applyRulesToPopups := true, ruleOptions := none }

/-- `const opts = { ...defaultPageOptions, ...options }` (src line 96). -/
def mergePageOptions (o : PageOptions) : EffPageOptions :=
  { incognito := o.incognito.getD defaultPageOptions.incognito
    applyRulesToPopups := o.applyRulesToPopups.getD defaultPageOptions.applyRulesToPopups
    ruleOptions := o.ruleOptions }

/-- A caller that passes no options (`acquirePage()` with `options`
undefined): the spread sees no supplied field. -/
def noPageOptions : PageOptions :=
  { incognito := none, applyRulesToPopups := none, ruleOptions := none }

/-- A caller that passes no pool options (`createPool(createBrowser)`). -/
def noPoolOptions : PartialPoolOptions :=
  { autostart := none, min := none, max := none, timeout := none, testOnBorrow := none }

/-! ## Factory (src lines 72-85) -/

/-- A pooled browser: the opaque remote resource plus the creation timestamp
`t = Date.now()` captured by `factory.create` (src lines 73-78). -/
structure PoolBrowser where
  createdAt : Int
deriving DecidableEq, Repr

/-- `factory.create` stamps the browser with the current time (src line 75). -/
def factoryCreate (now : Int) : PoolBrowser :=
  { createdAt := now }

/-- `browser.poolIsValid = () => Date.now() - t < opts.timeout` (src line 76). -/
def poolIsValid (b : PoolBrowser) (now timeout : Int) : Bool :=
  decide (now - b.createdAt < timeout)

/-- `factory.validate` returns `browser.poolIsValid()` (src lines 82-84). -/
def factoryValidate (b : PoolBrowser) (now timeout : Int) : Bool :=
  poolIsValid b now timeout

end Pool

namespace Pool

/-! ## Effect traces for `acquirePage`, `page.release`, `callPage`
(src lines 95-133) -/

/-- One observable side effect of the lease engine, in the order the embedded
functions emit them. `newPage inContext id` records whether the page was
created on the incognito context (`(ingocnito ?? browser).newPage()`,
src line 102). `closePage` records an attempted `p.close()`; `releaseCall`
marks an invocation of `page.release`. -/
inductive Effect where
  | poolAcquire
  | createContext
  | newPage (inContext : Bool) (id : Nat)
  | applyRules (id : Nat)
  | releaseCall
  | closePage (id : Nat)
  | closeContext
  | poolRelease
deriving DecidableEq, Repr

/-- The session state captured by the `page.release` closure: the `pages`
array (in registration order, `pages[0]` the primary page) and whether an
incognito context was created (`ingocnito !== null`). -/
structure Session where
  pages : List Nat
  hasContext : Bool
deriving DecidableEq, Repr

/-- Errors a release can surface. `teardown p` models `p.close()` rejecting,
`contextTeardown` models `ingocnito.close()` rejecting. `sessionClosed`
models the spec's `SessionClosedError`; the embedded code never produces it. -/
inductive SessionError where
  | teardown (id : Nat)
  | contextTeardown
  | sessionClosed
deriving DecidableEq, Repr

/-- The loop `for (const p of pages.reverse()) { await p.close(); }`
(src lines 106-108) over an already-reversed list. `fail p = true` means
`p.close()` rejects. A rejected `await` aborts the loop: the trace records
the attempted closes up to and including the failing one, and the second
component reports the first failing page, if any. -/
def closeLoop (fail : Nat → Bool) : List Nat → List Effect × Option Nat
  | [] => ([], none)
  | p :: rest =>
    if fail p then ([Effect.closePage p], some p)
    else
      let r := closeLoop fail rest
      (Effect.closePage p :: r.1, r.2)

/-- `page.release` (src lines 105-111): reverse the `pages` array in place,
close each page, then — when every close succeeded — close the incognito
context if one exists (`ctxFail = true` means `ingocnito.close()` rejects),
then `pool.release(browser)`. A rejected `await` aborts the rest of the
body, so a failure cuts the trace there. Returns the trace, the session as
left behind (the in-place `reverse()` persists in `pages`), and the
outcome. -/
def releaseRun (fail : Nat → Bool) (ctxFail : Bool) (s : Session) :
    List Effect × Session × Except SessionError Unit :=
  let after : Session := { s with pages := s.pages.reverse }
  let r := closeLoop fail s.pages.reverse
  match r.2 with
  | some p => (Effect.releaseCall :: r.1, after, Except.error (SessionError.teardown p))
  | none =>
    if s.hasContext then
      if ctxFail then
        (Effect.releaseCall :: (r.1 ++ [Effect.closeContext]), after,
          Except.error SessionError.contextTeardown)
      else
        (Effect.releaseCall :: (r.1 ++ [Effect.closeContext, Effect.poolRelease]), after,
          Except.ok ())
    else
      (Effect.releaseCall :: (r.1 ++ [Effect.poolRelease]), after, Except.ok ())

/-- `pool.acquirePage` (src lines 95-124): merge options, `pool.acquire()`,
create the incognito context when `opts.incognito`, create the primary page
(id 0) on the context if present else on the browser, and apply rules to it
when `opts.ruleOptions` is set. Returns the trace and the initial session. -/
def acquirePage (o : PageOptions) : List Effect × Session :=
  let opts := mergePageOptions o
  ([Effect.poolAcquire]
      ++ (if opts.incognito then [Effect.createContext] else [])
      ++ [Effect.newPage opts.incognito 0]
      ++ (if opts.ruleOptions.isSome then [Effect.applyRules 0] else []),
    { pages := [0], hasContext := opts.incognito })

/-- Recognises a page-creation effect, used to count created pages. -/
def isNewPage : Effect → Bool
  | Effect.newPage _ _ => true
  | _ => false

/-! ## Popup tracking (src lines 116-121) -/

/-- An asynchronously spawned child resource: `opener` is the page whose
activity spawned it, `child` the new page. Puppeteer emits the `"popup"`
event on the page that opened the popup. -/
structure Spawn where
  opener : Nat
  child : Nat
deriving DecidableEq, Repr

/-- The mutable state the popup listener touches: the `pages` array and the
set of pages rules have been applied to. -/
structure PopupState where
  pages : List Nat
  ruled : List Nat
deriving DecidableEq, Repr

/-- One delivery of a `"popup"` event. The listener is registered only on the
primary page (`page.on("popup", ...)`, src line 116; the handler installed on a
popup `p` sets `p.setupRules` but registers no further `"popup"` listener on
`p`), so an event whose opener is not the primary page has no listener and is
dropped. A handled event pushes the child onto `pages` (src line 117) and
applies rules to it when `applyRulesToPopups` and `ruleOptions` are both set
(src lines 119-120). -/
def handlePopup (primary : Nat) (applyP hasRules : Bool) (st : PopupState) (e : Spawn) :
    PopupState :=
  if e.opener = primary then
    { pages := st.pages ++ [e.child],
      ruled := st.ruled ++ (if applyP && hasRules then [e.child] else []) }
  else st

/-- Deliver a sequence of spawn events to the session's listener state. -/
def runSpawns (primary : Nat) (applyP hasRules : Bool) (events : List Spawn)
    (st : PopupState) : PopupState :=
  events.foldl (handlePopup primary applyP hasRules) st

/-! ## `pool.callPage` (src lines 126-133) -/

/-- The error a `callPage` caller can observe: the handler's own error
(re-raised after the `finally` block), or a release failure (a rejection in
the `finally` block supersedes the handler's outcome in JS semantics). -/
inductive CallError (E : Type) where
  | handlerError (e : E)
  | releaseError (se : SessionError)
deriving DecidableEq, Repr

/-- The session as it stands when `callPage` reaches its `finally` block:
the primary page plus every popup appended by the listener while the handler
ran (`spawns` are the popup events the handler's activity triggered). -/
def callPageSession (o : PageOptions) (spawns : List Spawn) : Session :=
  { pages := (runSpawns 0 (mergePageOptions o).applyRulesToPopups
      (mergePageOptions o).ruleOptions.isSome spawns
      { pages := (acquirePage o).2.pages, ruled := [] }).pages
    hasContext := (acquirePage o).2.hasContext }

/-- `pool.callPage` (src lines 126-133): acquire a page, run the handler in a
`try`, and `await page.release()` in the `finally`. The handler is abstracted
by its outcome (`handler : Except E T`) and the popup events its activity
triggered (`spawns`). When release completes, the handler's result or error
is returned/re-raised; when release itself rejects, that rejection
supersedes the handler's outcome (JS `finally` semantics). -/
def callPage {E T : Type} (o : PageOptions) (spawns : List Spawn) (handler : Except E T)
    (fail : Nat → Bool) (ctxFail : Bool) : List Effect × Except (CallError E) T :=
  ((acquirePage o).1 ++ (releaseRun fail ctxFail (callPageSession o spawns)).1,
    match (releaseRun fail ctxFail (callPageSession o spawns)).2.2 with
    | Except.ok _ =>
      match handler with
      | Except.ok t => Except.ok t
      | Except.error e => Except.error (CallError.handlerError e)
    | Except.error se => Except.error (CallError.releaseError se))

/-! ## Helper lemmas about `closeLoop` and `releaseRun` -/

/-- `handlePopup` never removes a tracked page. -/
theorem handlePopup_pages_mono (primary : Nat) (applyP hasRules : Bool)
    (st : PopupState) (e : Spawn) (p : Nat) (hp : p ∈ st.pages) :
    p ∈ (handlePopup primary applyP hasRules st e).pages := by
  unfold handlePopup
  by_cases h : e.opener = primary
  · simp [h, List.mem_append, hp]
  · simp [h, hp]

/-- `handlePopup` never removes a ruled page. -/
theorem handlePopup_ruled_mono (primary : Nat) (applyP hasRules : Bool)
    (st : PopupState) (e : Spawn) (p : Nat) (hp : p ∈ st.ruled) :
    p ∈ (handlePopup primary applyP hasRules st e).ruled := by
  unfold handlePopup
  by_cases h : e.opener = primary
  · simp [h, List.mem_append, hp]
  · simp [h, hp]

/-- `runSpawns` never removes a tracked page. -/
theorem runSpawns_pages_mono (primary : Nat) (applyP hasRules : Bool)
    (events : List Spawn) (st : PopupState) (p : Nat) (hp : p ∈ st.pages) :
    p ∈ (runSpawns primary applyP hasRules events st).pages := by
  induction events generalizing st with
  | nil => exact hp
  | cons f rest ih =>
    exact ih (handlePopup primary applyP hasRules st f)
      (handlePopup_pages_mono primary applyP hasRules st f p hp)

/-- `runSpawns` never removes a ruled page. -/
theorem runSpawns_ruled_mono (primary : Nat) (applyP hasRules : Bool)
    (events : List Spawn) (st : PopupState) (p : Nat) (hp : p ∈ st.ruled) :
    p ∈ (runSpawns primary applyP hasRules events st).ruled := by
  induction events generalizing st with
  | nil => exact hp
  | cons f rest ih =>
    exact ih (handlePopup primary applyP hasRules st f)
      (handlePopup_ruled_mono primary applyP hasRules st f p hp)

/-- `closeLoop` finds no failing page exactly when no page in the list fails. -/
theorem closeLoop_none_iff (fail : Nat → Bool) (l : List Nat) :
    (closeLoop fail l).2 = none ↔ ∀ p ∈ l, fail p = false := by
  induction l with
  | nil => simp [closeLoop]
  | cons p rest ih =>
    by_cases h : fail p
    · simp [closeLoop, h]
    · simp only [closeLoop, h, if_false, List.mem_cons]
      rw [Bool.not_eq_true] at h
      constructor
      · intro hn q hq
        rcases hq with hq | hq
        · exact hq ▸ h
        · exact (ih.mp hn) q hq
      · intro hall
        exact ih.mpr fun q hq => hall q (Or.inr hq)

/-- When no page fails, `closeLoop` closes every page in list order. -/
theorem closeLoop_trace_of_ok (fail : Nat → Bool) (l : List Nat)
    (h : ∀ p ∈ l, fail p = false) :
    (closeLoop fail l).1 = l.map Effect.closePage := by
  induction l with
  | nil => simp [closeLoop]
  | cons p rest ih =>
    have hp : fail p = false := h p (List.mem_cons_self p rest)
    simp [closeLoop, hp, ih fun q hq => h q (List.mem_cons_of_mem p hq)]

/-- Every effect `closeLoop` emits is a `closePage`. -/
theorem closeLoop_only_closes (fail : Nat → Bool) (l : List Nat) :
    ∀ e ∈ (closeLoop fail l).1, ∃ p, e = Effect.closePage p := by
  induction l with
  | nil => simp [closeLoop]
  | cons p rest ih =>
    by_cases h : fail p
    · simp [closeLoop, h]
    · simp only [closeLoop, h, if_false]
      intro e he
      rcases List.mem_cons.mp he with he1 | he1
      · exact ⟨p, he1⟩
      · exact ih e he1

/-- A successful release leaves the full teardown trace: all closes in
reversed registration order, then the context close when a context exists,
then the pool release. -/
theorem release_trace_of_ok (fail : Nat → Bool) (ctxFail : Bool) (s : Session)
    (hf : ∀ p ∈ s.pages, fail p = false) (hc : s.hasContext = true → ctxFail = false) :
    (releaseRun fail ctxFail s).1 =
      Effect.releaseCall :: (s.pages.reverse.map Effect.closePage
        ++ (if s.hasContext then [Effect.closeContext] else []) ++ [Effect.poolRelease]) := by
  have hf' : ∀ p ∈ s.pages.reverse, fail p = false := by
    intro p hp
    exact hf p (List.mem_reverse.mp hp)
  have h2 : (closeLoop fail s.pages.reverse).2 = none :=
    (closeLoop_none_iff fail s.pages.reverse).mpr hf'
  have h1 : (closeLoop fail s.pages.reverse).1 = s.pages.reverse.map Effect.closePage :=
    closeLoop_trace_of_ok fail s.pages.reverse hf'
  by_cases hctx : s.hasContext
  · simp [releaseRun, h2, h1, hctx, hc hctx]
  · simp [releaseRun, h2, h1, hctx]

/-- A successful release reports `ok`. -/
theorem release_ok_of_no_failure (fail : Nat → Bool) (ctxFail : Bool) (s : Session)
    (hf : ∀ p ∈ s.pages, fail p = false) (hc : s.hasContext = true → ctxFail = false) :
    (releaseRun fail ctxFail s).2.2 = Except.ok () := by
  have hf' : ∀ p ∈ s.pages.reverse, fail p = false := by
    intro p hp
    exact hf p (List.mem_reverse.mp hp)
  have h2 : (closeLoop fail s.pages.reverse).2 = none :=
    (closeLoop_none_iff fail s.pages.reverse).mpr hf'
  by_cases hctx : s.hasContext
  · simp [releaseRun, h2, hctx, hc hctx]
  · simp [releaseRun, h2, hctx]

/-- The in-place `pages.reverse()` (src line 106) persists: release always
leaves the session's `pages` array reversed and keeps the context flag. -/
theorem release_session_after (fail : Nat → Bool) (ctxFail : Bool) (s : Session) :
    (releaseRun fail ctxFail s).2.1 = { s with pages := s.pages.reverse } := by
  by_cases hctx : s.hasContext <;>
    rcases h2 : (closeLoop fail s.pages.reverse).2 with _ | p <;>
      cases ctxFail <;> simp [releaseRun, h2, hctx]

/-- `closeLoop` never emits a `poolRelease`. -/
theorem poolRelease_not_in_closeLoop (fail : Nat → Bool) (l : List Nat) :
    Effect.poolRelease ∉ (closeLoop fail l).1 := by
  intro h
  rcases closeLoop_only_closes fail l _ h with ⟨p, hp⟩
  exact Effect.noConfusion hp

/-- `closeLoop` never emits a `closeContext`. -/
theorem closeContext_not_in_closeLoop (fail : Nat → Bool) (l : List Nat) :
    Effect.closeContext ∉ (closeLoop fail l).1 := by
  intro h
  rcases closeLoop_only_closes fail l _ h with ⟨p, hp⟩
  exact Effect.noConfusion hp

/-- `closeLoop` never emits a `releaseCall`. -/
theorem releaseCall_not_in_closeLoop (fail : Nat → Bool) (l : List Nat) :
    Effect.releaseCall ∉ (closeLoop fail l).1 := by
  intro h
  rcases closeLoop_only_closes fail l _ h with ⟨p, hp⟩
  exact Effect.noConfusion hp

/-- The embedded `page.release` (src lines 105-111) can fail only through a
child close or the context close; no code path produces the spec's
`SessionClosedError`. -/
theorem release_not_sessionClosed (fail : Nat → Bool) (ctxFail : Bool) (s : Session) :
    (releaseRun fail ctxFail s).2.2 ≠ Except.error SessionError.sessionClosed := by
  rcases h2 : (closeLoop fail s.pages.reverse).2 with _ | p
  · by_cases hctx : s.hasContext
    · cases ctxFail
      · simp [releaseRun, h2, hctx]
      · simp [releaseRun, h2, hctx]
    · have hctx' : s.hasContext = false := by simpa using hctx
      simp [releaseRun, h2, hctx']
  · simp [releaseRun, h2]

/-- `acquirePage` never emits a `releaseCall`. -/
theorem releaseCall_not_in_acquire (o : PageOptions) :
    Effect.releaseCall ∉ (acquirePage o).1 := by
  cases hi : (mergePageOptions o).incognito <;>
    rcases hro : (mergePageOptions o).ruleOptions with _ | r <;>
      simp [acquirePage, hi, hro]

/-- Every release trace starts with the `releaseCall` marker and contains no
second one. -/
theorem releaseRun_trace_shape (fail : Nat → Bool) (ctxFail : Bool) (s : Session) :
    ∃ tail, (releaseRun fail ctxFail s).1 = Effect.releaseCall :: tail ∧
      Effect.releaseCall ∉ tail := by
  have hcl := releaseCall_not_in_closeLoop fail s.pages.reverse
  rcases h2 : (closeLoop fail s.pages.reverse).2 with _ | p
  · by_cases hctx : s.hasContext
    · cases ctxFail
      · refine ⟨(closeLoop fail s.pages.reverse).1
          ++ [Effect.closeContext, Effect.poolRelease], ?_, ?_⟩
        · simp [releaseRun, h2, hctx]
        · intro hmem
          rcases List.mem_append.mp hmem with h | h
          · exact hcl h
          · rcases List.mem_cons.mp h with h1 | h1
            · exact Effect.noConfusion h1
            · exact Effect.noConfusion (List.mem_singleton.mp h1)
      · refine ⟨(closeLoop fail s.pages.reverse).1 ++ [Effect.closeContext], ?_, ?_⟩
        · simp [releaseRun, h2, hctx]
        · intro hmem
          rcases List.mem_append.mp hmem with h | h
          · exact hcl h
          · exact Effect.noConfusion (List.mem_singleton.mp h)
    · have hctx' : s.hasContext = false := by simpa using hctx
      refine ⟨(closeLoop fail s.pages.reverse).1 ++ [Effect.poolRelease], ?_, ?_⟩
      · simp [releaseRun, h2, hctx']
      · intro hmem
        rcases List.mem_append.mp hmem with h | h
        · exact hcl h
        · exact Effect.noConfusion (List.mem_singleton.mp h)
  · refine ⟨(closeLoop fail s.pages.reverse).1, ?_, hcl⟩
    simp [releaseRun, h2]

/-! ## Theorems for configuration and factory claims -/

/-- C7: the factory stamps every created resource with its creation time, and
`poolIsValid` returns true exactly when the elapsed time since creation is
strictly less than the configured timeout; the pool's `validate` hook returns
exactly this value. -/
theorem factory_validity (t now timeout : Int) (b : PoolBrowser) :
    (factoryCreate t).createdAt = t ∧
    (poolIsValid b now timeout = true ↔ now - b.createdAt < timeout) ∧
    factoryValidate b now timeout = poolIsValid b now timeout := by
  refine ⟨rfl, ?_, rfl⟩
  simp [poolIsValid]

/-- C8: for every supplied pool configuration, the effective configuration
(after the `generic-pool` normalisation modelled in `genericPoolConfig`)
satisfies `min ≤ max`; a supplied `min > max` is silently clamped to `max`,
and a conforming `min` is kept. -/
theorem effective_min_le_max (p : PartialPoolOptions) :
    (genericPoolConfig (mergePoolOptions p)).min ≤ (genericPoolConfig (mergePoolOptions p)).max ∧
    (genericPoolConfig (mergePoolOptions p)).max = (mergePoolOptions p).max ∧
    ((mergePoolOptions p).min > (mergePoolOptions p).max →
      (genericPoolConfig (mergePoolOptions p)).min = (mergePoolOptions p).max) ∧
    ((mergePoolOptions p).min ≤ (mergePoolOptions p).max →
      (genericPoolConfig (mergePoolOptions p)).min = (mergePoolOptions p).min) := by
  refine ⟨?_, rfl, ?_, ?_⟩
  · exact Nat.min_le_right _ _
  · intro h
    simp [genericPoolConfig, Nat.min_eq_right (Nat.le_of_lt h)]
  · intro h
    simp [genericPoolConfig, Nat.min_eq_left h]

/-- Witness for C8 at a concrete input: supplying `min = 7, max = 3` yields an
effective `min` of `3`. -/
theorem effective_min_le_max_at_clamp :
    (genericPoolConfig (mergePoolOptions
        { autostart := none, min := some 7, max := some 3,
          timeout := none, testOnBorrow := none })).min ≤
      (genericPoolConfig (mergePoolOptions
        { autostart := none, min := some 7, max := some 3,
          timeout := none, testOnBorrow := none })).max ∧
    (genericPoolConfig (mergePoolOptions
        { autostart := none, min := some 7, max := some 3,
          timeout := none, testOnBorrow := none })).min = 3 := by
  have h := effective_min_le_max
    { autostart := none, min := some 7, max := some 3, timeout := none, testOnBorrow := none }
  exact ⟨h.1, h.2.2.1 (by decide)⟩

/-- C9: with no caller-supplied options the effective configuration is
autostart=true, min=0, max=5, timeout=30000, testOnBorrow=true,
incognito=true, applyRulesToPopups=true, no ruleOptions; and each supplied
field overrides only its own default. -/
theorem default_configuration :
    (mergePoolOptions noPoolOptions = defaultPoolOptions ∧
     defaultPoolOptions.autostart = true ∧ defaultPoolOptions.min = 0 ∧
     defaultPoolOptions.max = 5 ∧ defaultPoolOptions.timeout = 30000 ∧
     defaultPoolOptions.testOnBorrow = true) ∧
    (mergePageOptions noPageOptions = defaultPageOptions ∧
     defaultPageOptions.incognito = true ∧
     defaultPageOptions.applyRulesToPopups = true ∧
     defaultPageOptions.ruleOptions = none) ∧
    (∀ p : PartialPoolOptions,
      (mergePoolOptions p).autostart = p.autostart.getD true ∧
      (mergePoolOptions p).min = p.min.getD 0 ∧
      (mergePoolOptions p).max = p.max.getD 5 ∧
      (mergePoolOptions p).timeout = p.timeout.getD 30000 ∧
      (mergePoolOptions p).testOnBorrow = p.testOnBorrow.getD true) ∧
    (∀ o : PageOptions,
      (mergePageOptions o).incognito = o.incognito.getD true ∧
      (mergePageOptions o).applyRulesToPopups = o.applyRulesToPopups.getD true ∧
      (mergePageOptions o).ruleOptions = o.ruleOptions) := by
  exact ⟨⟨rfl, rfl, rfl, rfl, rfl, rfl⟩, ⟨rfl, rfl, rfl, rfl⟩,
    fun p => ⟨rfl, rfl, rfl, rfl, rfl⟩, fun o => ⟨rfl, rfl, rfl⟩⟩

/-! ## Theorems for release claims -/

/-- C1 counterexample: with children `[1, 2, 3]` and `2`'s close rejecting,
release closes `3`, attempts `2`, and then aborts: child `1` is never closed,
the context is never closed, and `pool.release(browser)` is never called —
refuting the claim that teardown is attempted for every child and that the
parent is still returned to the pool. -/
theorem release_abort_cex :
    releaseRun (fun p => decide (p = 2)) false { pages := [1, 2, 3], hasContext := true } =
      ([Effect.releaseCall, Effect.closePage 3, Effect.closePage 2],
        { pages := [3, 2, 1], hasContext := true },
        Except.error (SessionError.teardown 2)) ∧
    Effect.closePage 1 ∉
      (releaseRun (fun p => decide (p = 2)) false { pages := [1, 2, 3], hasContext := true }).1 ∧
    Effect.closeContext ∉
      (releaseRun (fun p => decide (p = 2)) false { pages := [1, 2, 3], hasContext := true }).1 ∧
    Effect.poolRelease ∉
      (releaseRun (fun p => decide (p = 2)) false { pages := [1, 2, 3], hasContext := true }).1 := by
  refine ⟨rfl, ?_, ?_, ?_⟩ <;> decide

/-- C1 amended: release is NOT failure-tolerant. The parent browser is
returned to the pool exactly when every child close and (when a context
exists) the context close succeed; a child close that throws aborts the
remaining teardown, so the context close is not even attempted. -/
theorem release_pool_return_iff_teardown_ok (fail : Nat → Bool) (ctxFail : Bool) (s : Session) :
    ((releaseRun fail ctxFail s).2.2 = Except.ok () ↔
      ((∀ p ∈ s.pages, fail p = false) ∧ (s.hasContext = true → ctxFail = false))) ∧
    (Effect.poolRelease ∈ (releaseRun fail ctxFail s).1 ↔
      (releaseRun fail ctxFail s).2.2 = Except.ok ()) ∧
    (∀ p, (releaseRun fail ctxFail s).2.2 = Except.error (SessionError.teardown p) →
      Effect.closeContext ∉ (releaseRun fail ctxFail s).1) := by
  have honly := closeLoop_only_closes fail s.pages.reverse
  have hmem : (∀ q ∈ s.pages.reverse, fail q = false) ↔ (∀ q ∈ s.pages, fail q = false) := by
    constructor
    · intro h q hq
      exact h q (List.mem_reverse.mpr hq)
    · intro h q hq
      exact h q (List.mem_reverse.mp hq)
  rcases h2 : (closeLoop fail s.pages.reverse).2 with _ | p
  · have hall : ∀ q ∈ s.pages, fail q = false :=
      hmem.mp ((closeLoop_none_iff fail s.pages.reverse).mp h2)
    by_cases hctx : s.hasContext
    · cases ctxFail
      · have hout : (releaseRun fail false s).2.2 = Except.ok () := by
          simp [releaseRun, h2, hctx]
        have htr : (releaseRun fail false s).1 = Effect.releaseCall ::
            ((closeLoop fail s.pages.reverse).1 ++ [Effect.closeContext, Effect.poolRelease]) := by
          simp [releaseRun, h2, hctx]
        refine ⟨?_, ?_, ?_⟩
        · rw [hout]
          exact iff_of_true rfl ⟨hall, fun _ => rfl⟩
        · rw [hout, htr]
          exact iff_of_true (List.mem_cons_of_mem _ (by simp)) rfl
        · intro p hp
          rw [hout] at hp
          exact Except.noConfusion hp
      · have hout : (releaseRun fail true s).2.2 =
            Except.error SessionError.contextTeardown := by
          simp [releaseRun, h2, hctx]
        have htr : (releaseRun fail true s).1 = Effect.releaseCall ::
            ((closeLoop fail s.pages.reverse).1 ++ [Effect.closeContext]) := by
          simp [releaseRun, h2, hctx]
        refine ⟨?_, ?_, ?_⟩
        · rw [hout]
          refine iff_of_false (fun h => Except.noConfusion h) (fun hcond => ?_)
          exact Bool.noConfusion (hcond.2 hctx)
        · rw [hout, htr]
          refine iff_of_false (fun hmemr => ?_) (fun h => Except.noConfusion h)
          rcases List.mem_cons.mp hmemr with h | h
          · exact Effect.noConfusion h
          · rcases List.mem_append.mp h with h1 | h1
            · exact poolRelease_not_in_closeLoop fail s.pages.reverse h1
            · exact Effect.noConfusion (List.mem_singleton.mp h1)
        · intro p hp
          rw [hout] at hp
          have hinj : SessionError.contextTeardown = SessionError.teardown p := by
            injection hp
          exact SessionError.noConfusion hinj
    · have hctx' : s.hasContext = false := by
        simpa using hctx
      have hout : (releaseRun fail ctxFail s).2.2 = Except.ok () := by
        simp [releaseRun, h2, hctx']
      have htr : (releaseRun fail ctxFail s).1 = Effect.releaseCall ::
          ((closeLoop fail s.pages.reverse).1 ++ [Effect.poolRelease]) := by
        simp [releaseRun, h2, hctx']
      refine ⟨?_, ?_, ?_⟩
      · rw [hout]
        exact iff_of_true rfl ⟨hall, fun hx => absurd hx hctx⟩
      · rw [hout, htr]
        exact iff_of_true (List.mem_cons_of_mem _ (by simp)) rfl
      · intro p hp
        rw [hout] at hp
        exact Except.noConfusion hp
  · have hnotall : ¬ ∀ q ∈ s.pages, fail q = false := by
      intro hall
      have hn : (closeLoop fail s.pages.reverse).2 = none :=
        (closeLoop_none_iff fail s.pages.reverse).mpr (hmem.mpr hall)
      rw [h2] at hn
      exact Option.noConfusion hn
    have hout : (releaseRun fail ctxFail s).2.2 =
        Except.error (SessionError.teardown p) := by
      simp [releaseRun, h2]
    have htr : (releaseRun fail ctxFail s).1 =
        Effect.releaseCall :: (closeLoop fail s.pages.reverse).1 := by
      simp [releaseRun, h2]
    refine ⟨?_, ?_, ?_⟩
    · rw [hout]
      exact iff_of_false (fun h => Except.noConfusion h) (fun hcond => hnotall hcond.1)
    · rw [hout, htr]
      refine iff_of_false (fun hmemr => ?_) (fun h => Except.noConfusion h)
      rcases List.mem_cons.mp hmemr with h | h
      · exact Effect.noConfusion h
      · exact poolRelease_not_in_closeLoop fail s.pages.reverse h
    · intro q _
      rw [htr]
      intro hmemr
      rcases List.mem_cons.mp hmemr with h | h
      · exact Effect.noConfusion h
      · exact closeContext_not_in_closeLoop fail s.pages.reverse h

/-- Witness for the amended C1: with no teardown failures the browser is
pool-released. -/
theorem release_pool_return_iff_teardown_ok_at :
    Effect.poolRelease ∈
      (releaseRun (fun _ => false) false { pages := [8], hasContext := false }).1 := by
  have h := release_pool_return_iff_teardown_ok (fun _ => false) false
    { pages := [8], hasContext := false }
  exact h.2.1.mpr (h.1.mpr ⟨by decide, fun hx => rfl⟩)

/-- C2: release destroys the tracked children in strict reverse-registration
order, then closes the isolated context if one was created, then returns the
parent browser to the pool, provided every teardown step succeeds. -/
theorem release_reverse_order (fail : Nat → Bool) (ctxFail : Bool) (s : Session)
    (hf : ∀ p ∈ s.pages, fail p = false) (hc : s.hasContext = true → ctxFail = false) :
    (releaseRun fail ctxFail s).1 =
      Effect.releaseCall :: (s.pages.reverse.map Effect.closePage
        ++ (if s.hasContext then [Effect.closeContext] else []) ++ [Effect.poolRelease]) ∧
    (releaseRun fail ctxFail s).2.2 = Except.ok () :=
  ⟨release_trace_of_ok fail ctxFail s hf hc, release_ok_of_no_failure fail ctxFail s hf hc⟩

/-- Witness for C2: children registered in order `[1, 2, 3]` are closed as
`3, 2, 1`, then the context is closed, then the browser is pool-released. -/
theorem release_reverse_order_at :
    (releaseRun (fun _ => false) false { pages := [1, 2, 3], hasContext := true }).1 =
      [Effect.releaseCall, Effect.closePage 3, Effect.closePage 2, Effect.closePage 1,
        Effect.closeContext, Effect.poolRelease] ∧
    (releaseRun (fun _ => false) false { pages := [1, 2, 3], hasContext := true }).2.2 =
      Except.ok () := by
  have h := release_reverse_order (fun _ => false) false
    { pages := [1, 2, 3], hasContext := true } (by decide) (by decide)
  exact ⟨by rw [h.1]; rfl, h.2⟩

/-- C4 counterexample: after a fully successful release of a session with
children `[1, 2]` and a context, a second `release()` call does not fail with
`SessionClosedError`: it succeeds again, closes the (already closed) pages —
in original registration order, because the first call's in-place
`reverse()` persisted — re-closes the context, and pool-releases the browser
a second time. -/
theorem second_release_cex :
    (releaseRun (fun _ => false) false
        (releaseRun (fun _ => false) false
          { pages := [1, 2], hasContext := true }).2.1).2.2 = Except.ok () ∧
    (releaseRun (fun _ => false) false
        (releaseRun (fun _ => false) false
          { pages := [1, 2], hasContext := true }).2.1).2.2 ≠
      Except.error SessionError.sessionClosed ∧
    (releaseRun (fun _ => false) false
        (releaseRun (fun _ => false) false
          { pages := [1, 2], hasContext := true }).2.1).1 =
      [Effect.releaseCall, Effect.closePage 1, Effect.closePage 2,
        Effect.closeContext, Effect.poolRelease] := by
  refine ⟨rfl, ?_, rfl⟩
  intro h
  exact Except.noConfusion ((rfl : (releaseRun (fun _ => false) false
    (releaseRun (fun _ => false) false
      { pages := [1, 2], hasContext := true }).2.1).2.2 = Except.ok ()) ▸ h)

/-- C4 amended: the code keeps no RELEASED state. `release` never fails with
`SessionClosedError`, and after a completed release a second `release()`
re-runs the whole teardown: it closes the tracked pages again — in original
registration order, since the first call's in-place `reverse()` persisted —
closes the context again if one was created, and returns the browser to the
pool a second time. -/
theorem release_no_closed_state (fail : Nat → Bool) (ctxFail : Bool) (s : Session)
    (hf : ∀ p ∈ s.pages, fail p = false) (hc : s.hasContext = true → ctxFail = false) :
    (∀ (f : Nat → Bool) (c : Bool) (t : Session),
      (releaseRun f c t).2.2 ≠ Except.error SessionError.sessionClosed) ∧
    (releaseRun fail ctxFail (releaseRun fail ctxFail s).2.1).1 =
      Effect.releaseCall :: (s.pages.map Effect.closePage
        ++ (if s.hasContext then [Effect.closeContext] else []) ++ [Effect.poolRelease]) ∧
    (releaseRun fail ctxFail (releaseRun fail ctxFail s).2.1).2.2 = Except.ok () := by
  have hafter : (releaseRun fail ctxFail s).2.1 = { s with pages := s.pages.reverse } :=
    release_session_after fail ctxFail s
  have hf' : ∀ p ∈ ({ s with pages := s.pages.reverse } : Session).pages, fail p = false := by
    intro p hp
    exact hf p (List.mem_reverse.mp hp)
  refine ⟨release_not_sessionClosed, ?_, ?_⟩
  · rw [hafter]
    have h := release_trace_of_ok fail ctxFail { s with pages := s.pages.reverse } hf' hc
    simpa using h
  · rw [hafter]
    exact release_ok_of_no_failure fail ctxFail _ hf' hc

/-- Witness for the amended C4 at a concrete input. -/
theorem release_no_closed_state_at :
    (releaseRun (fun _ => false) false
        (releaseRun (fun _ => false) false
          { pages := [4, 5], hasContext := false }).2.1).2.2 = Except.ok () ∧
    (releaseRun (fun _ => false) true
        { pages := [9], hasContext := false }).2.2 ≠
      Except.error SessionError.sessionClosed := by
  have h := release_no_closed_state (fun _ => false) false
    { pages := [4, 5], hasContext := false } (by decide) (by decide)
  exact ⟨h.2.2, h.1 (fun _ => false) true { pages := [9], hasContext := false }⟩

/-! ## Theorems for popup claims -/

/-- C5 counterexample: primary page `0` spawns popup `1`, which in turn spawns
page `2`. The popup listener exists only on the primary page, so `2` is never
appended to the tracked child list, never gets rules, and is therefore not
closed by release — refuting the claim that children spawned by children are
tracked. -/
theorem popup_grandchild_cex :
    runSpawns 0 true true [{ opener := 0, child := 1 }, { opener := 1, child := 2 }]
        { pages := [0], ruled := [0] } =
      { pages := [0, 1], ruled := [0, 1] } ∧
    (2 : Nat) ∉ (runSpawns 0 true true
        [{ opener := 0, child := 1 }, { opener := 1, child := 2 }]
        { pages := [0], ruled := [0] }).pages ∧
    (2 : Nat) ∉ (runSpawns 0 true true
        [{ opener := 0, child := 1 }, { opener := 1, child := 2 }]
        { pages := [0], ruled := [0] }).ruled ∧
    Effect.closePage 2 ∉ (releaseRun (fun _ => false) false
        { pages := (runSpawns 0 true true
            [{ opener := 0, child := 1 }, { opener := 1, child := 2 }]
            { pages := [0], ruled := [0] }).pages,
          hasContext := true }).1 := by
  refine ⟨rfl, ?_, ?_, ?_⟩ <;> decide

/-- C5 amended: every child spawned by the primary page itself is appended to
the session's tracked list, and when `applyRulesToPopups` and `ruleOptions`
are both set, rules are applied to it; children spawned by popups are not
tracked, because the popup listener is registered only on the primary page. -/
theorem popup_tracking (primary : Nat) (applyP hasRules : Bool) (events : List Spawn)
    (st : PopupState) (e : Spawn) (he : e ∈ events) (hop : e.opener = primary) :
    e.child ∈ (runSpawns primary applyP hasRules events st).pages ∧
    (applyP = true → hasRules = true →
      e.child ∈ (runSpawns primary applyP hasRules events st).ruled) := by
  induction events generalizing st with
  | nil => exact absurd he (List.not_mem_nil e)
  | cons f rest ih =>
    rcases List.mem_cons.mp he with hef | hef
    · subst hef
      constructor
      · refine runSpawns_pages_mono primary applyP hasRules rest _ e.child ?_
        unfold handlePopup
        simp [hop]
      · intro ha hr
        refine runSpawns_ruled_mono primary applyP hasRules rest _ e.child ?_
        unfold handlePopup
        simp [hop, ha, hr]
    · exact ih (handlePopup primary applyP hasRules st f) hef

/-- Witness for the amended C5: a popup spawned by the primary page `0` is
tracked and ruled. -/
theorem popup_tracking_at :
    (7 : Nat) ∈ (runSpawns 0 true true [{ opener := 0, child := 7 }]
        { pages := [0], ruled := [0] }).pages ∧
    (true = true → true = true →
      (7 : Nat) ∈ (runSpawns 0 true true [{ opener := 0, child := 7 }]
        { pages := [0], ruled := [0] }).ruled) :=
  popup_tracking 0 true true [{ opener := 0, child := 7 }]
    { pages := [0], ruled := [0] } { opener := 0, child := 7 }
    (List.mem_singleton.mpr rfl) rfl

/-! ## Theorems for acquire claims -/

/-- C6: with effective `incognito = true`, `acquirePage` first acquires a
browser from the pool, then creates the isolated context, then creates
exactly one primary page inside that context, and — when `ruleOptions` is
set — applies rules to it before returning; the resulting session tracks
exactly the primary page and remembers the context. -/
theorem acquire_incognito_sequence (o : PageOptions)
    (h : (mergePageOptions o).incognito = true) :
    (acquirePage o).1 = [Effect.poolAcquire, Effect.createContext, Effect.newPage true 0]
        ++ (if (mergePageOptions o).ruleOptions.isSome then [Effect.applyRules 0] else []) ∧
    ((acquirePage o).1.filter isNewPage).length = 1 ∧
    ((mergePageOptions o).ruleOptions.isSome = true →
      (acquirePage o).1 = [Effect.poolAcquire, Effect.createContext,
        Effect.newPage true 0, Effect.applyRules 0]) ∧
    (acquirePage o).2 = { pages := [0], hasContext := true } := by
  rcases hro : (mergePageOptions o).ruleOptions with _ | r
  · refine ⟨?_, ?_, ?_, ?_⟩
    · simp [acquirePage, h, hro]
    · simp [acquirePage, h, hro, isNewPage]
    · intro hsome
      exact absurd hsome (by simp)
    · simp [acquirePage, h]
  · refine ⟨?_, ?_, ?_, ?_⟩
    · simp [acquirePage, h, hro]
    · simp [acquirePage, h, hro, isNewPage]
    · intro _
      simp [acquirePage, h, hro]
    · simp [acquirePage, h]

/-- Witness for C6: default options plus a rule configuration. -/
theorem acquire_incognito_sequence_at :
    (acquirePage
        { noPageOptions with ruleOptions := some PageRuleOptions.mk }).1 =
      [Effect.poolAcquire, Effect.createContext, Effect.newPage true 0,
        Effect.applyRules 0] ∧
    ((acquirePage
        { noPageOptions with ruleOptions := some PageRuleOptions.mk }).1.filter
      isNewPage).length = 1 := by
  have h := acquire_incognito_sequence
    { noPageOptions with ruleOptions := some PageRuleOptions.mk } rfl
  exact ⟨h.2.2.1 rfl, h.2.1⟩

/-- C3: `callPage` invokes `release` exactly once whether the handler returns
normally or throws, and — when release completes — returns the handler's
result or re-raises the handler's error to the caller. -/
theorem callPage_release_once {E T : Type} (o : PageOptions) (spawns : List Spawn)
    (handler : Except E T) (fail : Nat → Bool) (ctxFail : Bool)
    (hf : ∀ p ∈ (callPageSession o spawns).pages, fail p = false)
    (hc : (callPageSession o spawns).hasContext = true → ctxFail = false) :
    (callPage o spawns handler fail ctxFail).1.count Effect.releaseCall = 1 ∧
    (∀ t, handler = Except.ok t →
      (callPage o spawns handler fail ctxFail).2 = Except.ok t) ∧
    (∀ e, handler = Except.error e →
      (callPage o spawns handler fail ctxFail).2 =
        Except.error (CallError.handlerError e)) := by
  have hok := release_ok_of_no_failure fail ctxFail (callPageSession o spawns) hf hc
  obtain ⟨tail, htr, hnot⟩ := releaseRun_trace_shape fail ctxFail (callPageSession o spawns)
  refine ⟨?_, ?_, ?_⟩
  · show ((acquirePage o).1
        ++ (releaseRun fail ctxFail (callPageSession o spawns)).1).count
      Effect.releaseCall = 1
    rw [List.count_append, htr]
    rw [List.count_eq_zero.mpr (releaseCall_not_in_acquire o)]
    rw [List.count_cons_self]
    rw [List.count_eq_zero.mpr hnot]
  · intro t ht
    simp only [callPage, hok, ht]
  · intro e hee
    simp only [callPage, hok, hee]

/-- Witness for C3: a handler that throws `7` still gets exactly one release,
and its error is re-raised after release completes. -/
theorem callPage_release_once_at :
    (callPage noPageOptions [] (Except.error (7 : Nat) : Except Nat Nat)
        (fun _ => false) false).1.count Effect.releaseCall = 1 ∧
    (callPage noPageOptions [] (Except.error (7 : Nat) : Except Nat Nat)
        (fun _ => false) false).2 = Except.error (CallError.handlerError 7) := by
  have h := callPage_release_once noPageOptions []
    (Except.error (7 : Nat) : Except Nat Nat) (fun _ => false) false
    (by decide) (fun _ => rfl)
  exact ⟨h.1, h.2.2 7 rfl⟩

/-- C10: with `incognito = false` no isolated context is created — the primary
page is created directly on the shared browser — and release performs only the
child-page closes and the pool release: the context-teardown step is skipped
and no other effect on the browser is emitted. -/
theorem no_incognito_frame (o : PageOptions) (fail : Nat → Bool) (ctxFail : Bool)
    (ps : List Nat)
    (h : (mergePageOptions o).incognito = false)
    (hf : ∀ p ∈ ps, fail p = false) :
    Effect.createContext ∉ (acquirePage o).1 ∧
    (acquirePage o).1 = [Effect.poolAcquire, Effect.newPage false 0]
        ++ (if (mergePageOptions o).ruleOptions.isSome then [Effect.applyRules 0] else []) ∧
    (acquirePage o).2.hasContext = false ∧
    (releaseRun fail ctxFail { pages := ps, hasContext := false }).1 =
      Effect.releaseCall :: (ps.reverse.map Effect.closePage ++ [Effect.poolRelease]) ∧
    Effect.closeContext ∉ (releaseRun fail ctxFail { pages := ps, hasContext := false }).1 := by
  have hrel := release_trace_of_ok fail ctxFail { pages := ps, hasContext := false }
    hf (fun hx => Bool.noConfusion hx)
  have hrel' : (releaseRun fail ctxFail { pages := ps, hasContext := false }).1 =
      Effect.releaseCall :: (ps.reverse.map Effect.closePage ++ [Effect.poolRelease]) := by
    simpa using hrel
  refine ⟨?_, ?_, ?_, hrel', ?_⟩
  · rcases hro : (mergePageOptions o).ruleOptions with _ | r <;>
      simp [acquirePage, h, hro]
  · rcases hro : (mergePageOptions o).ruleOptions with _ | r <;>
      simp [acquirePage, h, hro]
  · simp [acquirePage, h]
  · rw [hrel']
    intro hmem
    rcases List.mem_cons.mp hmem with h1 | h1
    · exact Effect.noConfusion h1
    · rcases List.mem_append.mp h1 with h2 | h2
      · rcases List.mem_map.mp h2 with ⟨q, _, hq⟩
        exact Effect.noConfusion hq
      · exact Effect.noConfusion (List.mem_singleton.mp h2)

/-- Witness for C10: `incognito := some false`, two tracked pages. -/
theorem no_incognito_frame_at :
    Effect.createContext ∉ (acquirePage
        { incognito := some false, applyRulesToPopups := none, ruleOptions := none }).1 ∧
    (releaseRun (fun _ => false) false { pages := [0, 1], hasContext := false }).1 =
      [Effect.releaseCall, Effect.closePage 1, Effect.closePage 0, Effect.poolRelease] := by
  have h := no_incognito_frame
    { incognito := some false, applyRulesToPopups := none, ruleOptions := none }
    (fun _ => false) false [0, 1] rfl (by decide)
  exact ⟨h.1, by rw [h.2.2.2.1]; rfl⟩

end Pool
